import Mathlib

/-!
Verification development for the core of an SSH reverse proxy (sshpiper).

The program brokers one SSH session between a downstream client and an
upstream server.  The embedding below follows the source of
`src/ssh/sshpiper.go`: the authentication-relay transform
(`processAuthMsg` with its helpers `parsePublicKeyMsg`, `checkPublicKey`,
`validAndAck`, `signAgain`, `noneAuthMsg`), the relay loop (`pipeAuth`),
host-key management (`AddHostKey`) and the pre-upstream control flow of
`NewSSHPiperConn`.

Go strings and byte slices are both modelled as `List Nat` (one entry per
byte); transports are modelled by explicit streams of packets and traces
of I/O events; library helpers of the repository's `ssh` package that are
not part of the given source file (`parseString`, `parseSignature`,
`ParsePublicKey`, `isAcceptableAlgo`, `buildDataSignedForAuth`, the wire
marshalling of messages, `validateKey`) are modelled from the spec, as
noted on each definition.
-/

abbrev Byte := Nat

/-- Bytes of a Go string literal (all literals used here are ASCII). -/
def strB (s : String) : List Byte := s.data.map Char.toNat

/-- Message number of SSH_MSG_USERAUTH_REQUEST. -/
def msgUserAuthRequest : Byte := 50

/-- Message number of SSH_MSG_USERAUTH_SUCCESS. -/
def msgUserAuthSuccess : Byte := 52

/-- Message number of SSH_MSG_USERAUTH_PK_OK. -/
def msgUserAuthPubKeyOk : Byte := 60

/-- The service name "ssh-connection" (the source's serviceSSH constant). -/
def serviceSSH : List Byte := strB "ssh-connection"

/-- Modelled from the spec: big-endian 32-bit length, as the SSH wire
format's string length prefix (the library's marshalling helpers are not
under src/). -/
def u32be (n : Nat) : List Byte :=
  [n / 16777216 % 256, n / 65536 % 256, n / 256 % 256, n % 256]

/-- Modelled from the spec: an SSH wire string is a 4-byte big-endian
length followed by that many bytes (library helper marshalString). -/
def marshalString (s : List Byte) : List Byte := u32be s.length ++ s

/-- Modelled from the spec: library helper parseString reads a 4-byte
big-endian length and then that many bytes, returning them and the rest;
it fails when fewer bytes remain than announced. -/
def parseString : List Byte → Option (List Byte × List Byte)
  | b0 :: b1 :: b2 :: b3 :: rest =>
    let n := b0 * 16777216 + b1 * 65536 + b2 * 256 + b3
    if n ≤ rest.length then some (rest.take n, rest.drop n) else none
  | _ => none

/-- A signature as in the source's ssh package: a format name and a blob;
equality is by bytes. -/
structure Signature where
  format : List Byte
  blob : List Byte
deriving DecidableEq, Repr

/-- Modelled from the spec: the wire encoding of a Signature value is its
format and blob, each as an SSH string (library Marshal on Signature). -/
def marshalSignature (s : Signature) : List Byte :=
  marshalString s.format ++ marshalString s.blob

/-- Modelled from the spec: library helper parseSignature; a signature
travels as one length-prefixed string that contains exactly a format
string and a blob string, nothing trailing inside. -/
def parseSignature (input : List Byte) : Option (Signature × List Byte) :=
  match parseString input with
  | none => none
  | some (sigBytes, rest) =>
    match parseString sigBytes with
    | none => none
    | some (format, r1) =>
      match parseString r1 with
      | none => none
      | some (blob, r2) =>
        if r2 = [] then some ({ format := format, blob := blob }, rest) else none

/-- A public key as the core sees it: its algorithm name (Type()), its
wire encoding (Marshal()) and its verification operation (Verify, true
meaning the error was nil). -/
structure PublicKey where
  ktype : List Byte
  marshal : List Byte
  verify : List Byte → Signature → Bool

/-- A signing identity: its public key and its signing operation (Sign;
none models a signing error, randomness is folded into the function). -/
structure Signer where
  publicKey : PublicKey
  sign : List Byte → Option Signature

/-- Modelled from the spec: the acceptable-algorithm allow-list of the
library helper isAcceptableAlgo (the spec's typical list). -/
def isAcceptableAlgo (algo : List Byte) : Bool :=
  [strB "ssh-rsa", strB "rsa-sha2-256", strB "rsa-sha2-512", strB "ssh-ed25519",
    strB "ecdsa-sha2-nistp256", strB "ecdsa-sha2-nistp384",
    strB "ecdsa-sha2-nistp521"].contains algo

/-- The source's userAuthRequestMsg: user, service and method strings plus
the method-specific rest-of-packet payload. -/
structure userAuthRequestMsg where
  user : List Byte
  service : List Byte
  method : List Byte
  payload : List Byte
deriving DecidableEq, Repr

/-- The source's noneAuthMsg: a "none"-method request for the given user. -/
def noneAuthMsg (user : List Byte) : userAuthRequestMsg :=
  { user := user, service := serviceSSH, method := strB "none", payload := [] }

/-- Modelled from the spec: library helper buildDataSignedForAuth builds
the signed blob session_id, the USERAUTH_REQUEST type byte, the request's
user, service and method, the hasSig byte 0x01, the key algorithm and the
key blob (strings length-prefixed; the request's payload is not part of
the blob). -/
def buildDataSignedForAuth (sessionID : List Byte) (req : userAuthRequestMsg)
    (algo pubKey : List Byte) : List Byte :=
  marshalString sessionID ++ [msgUserAuthRequest] ++ marshalString req.user ++
    marshalString req.service ++ marshalString req.method ++ [1] ++
    marshalString algo ++ marshalString pubKey

/-- Modelled from the spec: the wire encoding of SSH_MSG_USERAUTH_PK_OK
with an algorithm name and a public-key blob (library Marshal on
userAuthPubKeyOkMsg). -/
def marshalPubKeyOk (algo pubKey : List Byte) : List Byte :=
  msgUserAuthPubKeyOk :: (marshalString algo ++ marshalString pubKey)

/-- The error outcomes of the transform, mirroring the source's error
returns: not a publickey message, a malformed payload (parseError), an
algorithm off the allow-list, a key the library cannot parse, and a
failing Sign call inside signAgain. -/
inductive AuthErr
  | notPublicKey
  | parseFail
  | unacceptableAlgo
  | keyParseFail
  | signFail
deriving DecidableEq, Repr

/-- The source's parsePublicKeyMsg.  It is parametric in parsePK, the
library's ParsePublicKey (external to the given source file).  The Go
function returns (key, isQuery, sig): isQuery is true exactly when sig is
nil, so the pair is compressed here into an Option Signature whose none
means the query form.  As in the source, the query form performs no
emptiness check on the bytes left after the key blob, and any nonzero
leading byte selects the signed form. -/
def parsePublicKeyMsg (parsePK : List Byte → Option PublicKey)
    (userAuthReq : userAuthRequestMsg) :
    Except AuthErr (PublicKey × Option Signature) :=
  if userAuthReq.method ≠ strB "publickey" then .error .notPublicKey
  else
    match userAuthReq.payload with
    | [] => .error .parseFail
    | b :: payload =>
      let isQuery := b == 0
      match parseString payload with
      | none => .error .parseFail
      | some (algoBytes, payload1) =>
        if ¬ isAcceptableAlgo algoBytes then .error .unacceptableAlgo
        else
          match parseString payload1 with
          | none => .error .parseFail
          | some (pubKeyData, payload2) =>
            match parsePK pubKeyData with
            | none => .error .keyParseFail
            | some pubKey =>
              if isQuery then .ok (pubKey, none)
              else
                match parseSignature payload2 with
                | none => .error .parseFail
                | some (sig, rest) =>
                  if rest ≠ [] then .error .parseFail
                  else .ok (pubKey, some sig)

/-- The source's checkPublicKey: the signature format must be on the
allow-list and the downstream key must verify the signature over the blob
built from the downstream session id, the request's user, service and
method, and the downstream key's algorithm and wire encoding.  The Go
function returns (ok, error) with the error always nil, modelled as Bool. -/
def checkPublicKey (downSessionID : List Byte) (msg : userAuthRequestMsg)
    (pubkey : PublicKey) (sig : Signature) : Bool :=
  if ¬ isAcceptableAlgo sig.format then false
  else pubkey.verify (buildDataSignedForAuth downSessionID msg pubkey.ktype pubkey.marshal) sig

/-- The callback and transport context the transform closes over:
the mapped upstream user, the optional MapPublicKey callback (none for
both a nil callback; the callback's own error and nil-signer results are
folded into its Option result as in the source's combined check), the
library's ParsePublicKey, the library's validateKey probe against the
upstream transport (Modelled from the spec: it sends a query-form request
upstream and reports whether the upstream acknowledged the key), and the
two session ids. -/
structure PiperEnv where
  mappedUser : List Byte
  mapPublicKey : Option (PublicKey → Option Signer)
  parsePK : List Byte → Option PublicKey
  validateKey : PublicKey → List Byte → Bool
  downSessionID : List Byte
  upSessionID : List Byte

/-- The source's validAndAck: probe the upstream with the mapped key; on
acknowledgement write PK_OK carrying the downstream key's algorithm and
blob to the downstream and return the nil sentinel, otherwise return a
"none" request for the given user.  The second component is the list of
packets written to the downstream transport. -/
def validAndAck (env : PiperEnv) (user : List Byte) (upKey downKey : PublicKey) :
    Option userAuthRequestMsg × List (List Byte) :=
  if env.validateKey upKey user then
    (none, [marshalPubKeyOk downKey.ktype downKey.marshal])
  else (some (noneAuthMsg user), [])

/-- The source's signAgain: sign the upstream-side blob with the mapped
signer and rebuild the request; the incoming msg is passed as in the
source but fully overwritten by Unmarshal(Marshal(pubkeyMsg), msg), so the
result does not depend on it.  The rebuilt payload is the signed-form
publickey payload: the hasSig byte 0x01, the signer key's algorithm and
blob as strings, and the wrapped signature. -/
def signAgain (env : PiperEnv) (user : List Byte) (msg : userAuthRequestMsg)
    (signer : Signer) : Option userAuthRequestMsg :=
  match signer.sign (buildDataSignedForAuth env.upSessionID
      { user := user, service := serviceSSH, method := strB "publickey", payload := [] }
      signer.publicKey.ktype signer.publicKey.marshal) with
  | none => none
  | some sgn =>
    some
      { user := user, service := serviceSSH, method := strB "publickey",
        payload := 1 :: (marshalString signer.publicKey.ktype ++
          marshalString signer.publicKey.marshal ++ marshalString (marshalSignature sgn)) }

/-- The source's processAuthMsg closure: non-publickey requests (or a nil
MapPublicKey) pass through with the user overwritten to mappedUser; for
publickey requests the payload is parsed, the key mapped (an error or nil
signer yields a "none" request carrying the downstream user), the query
form goes through validAndAck, and the signed form is verified with
checkPublicKey and re-signed with signAgain, a failing verification again
yielding a "none" request carrying the downstream user.  The result pairs
the transformed message (none is the nil sentinel) with the packets
written to the downstream transport on the way. -/
def processAuthMsg (env : PiperEnv) (msg : userAuthRequestMsg) :
    Except AuthErr (Option userAuthRequestMsg × List (List Byte)) :=
  match env.mapPublicKey with
  | none => .ok (some { msg with user := env.mappedUser }, [])
  | some mapPK =>
    if msg.method ≠ strB "publickey" then
      .ok (some { msg with user := env.mappedUser }, [])
    else
      match parsePublicKeyMsg env.parsePK msg with
      | .error e => .error e
      | .ok (downKey, sigOpt) =>
        match mapPK downKey with
        | none => .ok (some (noneAuthMsg msg.user), [])
        | some signer =>
          match sigOpt with
          | none => .ok (validAndAck env env.mappedUser signer.publicKey downKey)
          | some sig =>
            if checkPublicKey env.downSessionID msg downKey sig then
              match signAgain env env.mappedUser msg signer with
              | none => .error .signFail
              | some m => .ok (some m, [])
            else .ok (some (noneAuthMsg msg.user), [])

/-- One I/O action of the auth relay loop: writing the transformed request
to the upstream, reading a reply packet from the upstream, writing a packet
to the downstream, reading the next request from the downstream. -/
inductive PipeEvent
  | writeUp (m : userAuthRequestMsg)
  | readUp (p : List Byte)
  | writeDown (p : List Byte)
  | readDown (m : userAuthRequestMsg)
deriving DecidableEq, Repr

/-- How a run of the relay loop ends: success, a transform error, or a
read error on one of the transports (modelled by an exhausted stream). -/
inductive PipeOutcome
  | success
  | procFail
  | upReadFail
  | downReadFail
deriving DecidableEq, Repr

/-- The loop of the source's pipeAuth, made explicit over its inputs: the
transform, the current request, the stream of packets the upstream will
deliver (each a leading type byte plus rest, since the transport never
yields an empty packet without an error), and the stream of requests the
downstream will deliver.  Each iteration transforms the request (a
transform error ends the run); a non-nil result is written upstream, one
reply is read from upstream and written verbatim downstream, and a reply
whose type byte is USERAUTH_SUCCESS ends the run with success; otherwise
the next downstream request is read and the loop repeats.  The result is
the trace of I/O events (including the packets the transform itself wrote
downstream) and the outcome. -/
def pipeAuthLoop
    (process : userAuthRequestMsg → Except AuthErr (Option userAuthRequestMsg × List (List Byte))) :
    userAuthRequestMsg → List (Byte × List Byte) → List userAuthRequestMsg →
    List PipeEvent × PipeOutcome
  | msg, upReplies, downMsgs =>
    match process msg with
    | .error _ => ([], .procFail)
    | .ok (transformed, ws) =>
      match transformed with
      | some fm =>
        match upReplies with
        | [] => (ws.map PipeEvent.writeDown ++ [PipeEvent.writeUp fm], .upReadFail)
        | (b, p) :: upRest =>
          if b = msgUserAuthSuccess then
            (ws.map PipeEvent.writeDown ++ [PipeEvent.writeUp fm,
              PipeEvent.readUp (b :: p), PipeEvent.writeDown (b :: p)], .success)
          else
            match downMsgs with
            | [] =>
              (ws.map PipeEvent.writeDown ++ [PipeEvent.writeUp fm,
                PipeEvent.readUp (b :: p), PipeEvent.writeDown (b :: p)], .downReadFail)
            | m :: downRest =>
              ((ws.map PipeEvent.writeDown ++ [PipeEvent.writeUp fm,
                PipeEvent.readUp (b :: p), PipeEvent.writeDown (b :: p)]) ++
                PipeEvent.readDown m :: (pipeAuthLoop process m upRest downRest).1,
               (pipeAuthLoop process m upRest downRest).2)
      | none =>
        match downMsgs with
        | [] => (ws.map PipeEvent.writeDown, .downReadFail)
        | m :: downRest =>
          (ws.map PipeEvent.writeDown ++ PipeEvent.readDown m ::
            (pipeAuthLoop process m upReplies downRest).1,
           (pipeAuthLoop process m upReplies downRest).2)

/-- The strictly sequential shapes a relay-loop trace can take, with its
outcome.  Each iteration first carries the packets the transform wrote
downstream; a forwarded request is immediately followed by exactly one
upstream reply and that reply's verbatim forward to the downstream; the
run ends with success exactly on a reply whose type byte is
USERAUTH_SUCCESS, and only then; otherwise the next downstream read
follows before anything else. -/
inductive RelaySeq : List PipeEvent → PipeOutcome → Prop
  | procFail : RelaySeq [] .procFail
  | downEOF (ws : List (List Byte)) :
      RelaySeq (ws.map PipeEvent.writeDown) .downReadFail
  | upEOF (ws : List (List Byte)) (fm : userAuthRequestMsg) :
      RelaySeq (ws.map PipeEvent.writeDown ++ [PipeEvent.writeUp fm]) .upReadFail
  | succeed (ws : List (List Byte)) (fm : userAuthRequestMsg) (p : List Byte) :
      RelaySeq (ws.map PipeEvent.writeDown ++ [PipeEvent.writeUp fm,
        PipeEvent.readUp (msgUserAuthSuccess :: p),
        PipeEvent.writeDown (msgUserAuthSuccess :: p)]) .success
  | forwardEOF (ws : List (List Byte)) (fm : userAuthRequestMsg) (b : Byte) (p : List Byte)
      (hb : b ≠ msgUserAuthSuccess) :
      RelaySeq (ws.map PipeEvent.writeDown ++ [PipeEvent.writeUp fm,
        PipeEvent.readUp (b :: p), PipeEvent.writeDown (b :: p)]) .downReadFail
  | stepForward (ws : List (List Byte)) (fm : userAuthRequestMsg) (b : Byte) (p : List Byte)
      (m : userAuthRequestMsg) (t : List PipeEvent) (o : PipeOutcome)
      (hb : b ≠ msgUserAuthSuccess) (h : RelaySeq t o) :
      RelaySeq (ws.map PipeEvent.writeDown ++ PipeEvent.writeUp fm ::
        PipeEvent.readUp (b :: p) :: PipeEvent.writeDown (b :: p) ::
        PipeEvent.readDown m :: t) o
  | stepSkip (ws : List (List Byte)) (m : userAuthRequestMsg) (t : List PipeEvent)
      (o : PipeOutcome) (h : RelaySeq t o) :
      RelaySeq (ws.map PipeEvent.writeDown ++ PipeEvent.readDown m :: t) o

/-- The configuration facts NewSSHPiperConn branches on: whether the
FindUpstream callback is set, whether an AdditionalChallenge callback is
set, and what the challenge callback reports when invoked (error, false,
or true). -/
structure PiperSetup where
  hasFindUpstream : Bool
  hasChallenge : Bool
  challengeResult : Except Unit Bool

/-- One observable step of NewSSHPiperConn before the upstream phase:
the downstream handshake, reading a downstream auth request, writing the
USERAUTH_FAILURE prompt that solicits keyboard-interactive, invoking the
AdditionalChallenge callback, invoking FindUpstream. -/
inductive PiperStep
  | downstreamHandshake
  | readDown (m : userAuthRequestMsg)
  | writeAuthFailure
  | challengeInvoked
  | findUpstreamInvoked
deriving DecidableEq, Repr

/-- How the modelled prefix of NewSSHPiperConn ends: a panic on a nil
FindUpstream, an I/O failure, a challenge error or rejection, or reaching
the upstream phase (FindUpstream invoked and the run proceeding). -/
inductive PiperOutcome
  | panicked
  | ioFail
  | challengeErr
  | challengeRejected
  | upstreamPhase
deriving DecidableEq, Repr

/-- The source's additional-challenge sub-loop: repeatedly write the
USERAUTH_FAILURE prompt and read the next downstream request until one
uses the keyboard-interactive method; an exhausted stream models a read
error.  Returns the trace and, on success, the remaining stream. -/
def challengeLoop : List userAuthRequestMsg → List PiperStep × Option (List userAuthRequestMsg)
  | [] => ([PiperStep.writeAuthFailure], none)
  | m :: rest =>
    if m.method = strB "keyboard-interactive" then
      ([PiperStep.writeAuthFailure, PiperStep.readDown m], some rest)
    else
      let r := challengeLoop rest
      (PiperStep.writeAuthFailure :: PiperStep.readDown m :: r.1, r.2)

/-- The control flow of the source's NewSSHPiperConn up to and including
the FindUpstream invocation: panic (before any I/O) when FindUpstream is
nil; downstream handshake; read the first auth request; when a challenge
is configured, run the prompt loop and invoke the callback, aborting on
an error or a false result; only then invoke FindUpstream.  The upstream
handshake and auth relay that follow are modelled separately. -/
def newSSHPiperConnModel (setup : PiperSetup) (handshakeOk : Bool)
    (downMsgs : List userAuthRequestMsg) : List PiperStep × PiperOutcome :=
  if ¬ setup.hasFindUpstream then ([], .panicked)
  else if ¬ handshakeOk then ([PiperStep.downstreamHandshake], .ioFail)
  else
    match downMsgs with
    | [] => ([PiperStep.downstreamHandshake], .ioFail)
    | first :: rest =>
      let ev0 := [PiperStep.downstreamHandshake, PiperStep.readDown first]
      if setup.hasChallenge then
        match challengeLoop rest with
        | (t, none) => (ev0 ++ t, .ioFail)
        | (t, some _) =>
          match setup.challengeResult with
          | .error _ => (ev0 ++ t ++ [PiperStep.challengeInvoked], .challengeErr)
          | .ok false => (ev0 ++ t ++ [PiperStep.challengeInvoked], .challengeRejected)
          | .ok true =>
            (ev0 ++ t ++ [PiperStep.challengeInvoked, PiperStep.findUpstreamInvoked],
              .upstreamPhase)
      else (ev0 ++ [PiperStep.findUpstreamInvoked], .upstreamPhase)

/-- The source's AddHostKey on the host-key list: replace the first key
whose public-key algorithm type equals the new key's type, else append. -/
def addHostKey : List Signer → Signer → List Signer
  | [], key => [key]
  | k :: rest, key =>
    if k.publicKey.ktype = key.publicKey.ktype then key :: rest
    else k :: addHostKey rest key

/-- A concrete downstream key whose wire encoding is the single byte 65
and whose Verify always reports success. -/
def pkDown : PublicKey :=
  { ktype := strB "ssh-rsa", marshal := [65], verify := fun _ _ => true }

/-- A concrete upstream key whose wire encoding is the single byte 66 and
whose Verify accepts exactly the signature pkUpSign produces on the same
data. -/
def pkUp : PublicKey :=
  { ktype := strB "ssh-rsa", marshal := [66],
    verify := fun d sg => sg == { format := strB "ssh-rsa", blob := d } }

/-- A concrete signer over pkUp whose Sign always succeeds and whose
signatures pkUp.verify accepts. -/
def signerUp : Signer :=
  { publicKey := pkUp, sign := fun d => some { format := strB "ssh-rsa", blob := d } }

/-- A concrete ParsePublicKey: the wire encoding [65] parses to pkDown,
everything else fails. -/
def parsePKconcrete : List Byte → Option PublicKey :=
  fun d => if d = [65] then some pkDown else none

/-- A concrete environment whose MapPublicKey maps every key to nothing
(the unmapped case) and whose mapped user differs from the downstream
user used in the counterexamples. -/
def envUnmapped : PiperEnv :=
  { mappedUser := strB "bob", mapPublicKey := some (fun _ => none),
    parsePK := parsePKconcrete, validateKey := fun _ _ => true,
    downSessionID := [9], upSessionID := [7] }

/-- A concrete environment whose MapPublicKey maps every key to signerUp
and whose upstream probe always acknowledges. -/
def envMapped : PiperEnv :=
  { mappedUser := strB "bob", mapPublicKey := some (fun _ => some signerUp),
    parsePK := parsePKconcrete, validateKey := fun _ _ => true,
    downSessionID := [9], upSessionID := [7] }

/-- A concrete query-form publickey request for pkDown from user alice. -/
def msgQuery : userAuthRequestMsg :=
  { user := strB "alice", service := serviceSSH, method := strB "publickey",
    payload := 0 :: (marshalString (strB "ssh-rsa") ++ marshalString [65]) }

/-- A concrete query-form publickey request with a stray trailing byte
after the key blob. -/
def msgQueryTrailing : userAuthRequestMsg :=
  { user := strB "alice", service := serviceSSH, method := strB "publickey",
    payload := 0 :: (marshalString (strB "ssh-rsa") ++ marshalString [65] ++ [99]) }

/-- A concrete signature whose format is on the allow-list. -/
def sigGood : Signature := { format := strB "ssh-rsa", blob := [5] }

/-- A concrete signature whose format is not on the allow-list. -/
def sigBadFormat : Signature := { format := strB "bogus", blob := [3] }

/-- A concrete signed-form publickey request for pkDown carrying sigGood. -/
def msgSigned : userAuthRequestMsg :=
  { user := strB "alice", service := serviceSSH, method := strB "publickey",
    payload := 1 :: (marshalString (strB "ssh-rsa") ++ marshalString [65] ++
      marshalString (marshalSignature sigGood)) }

/-- A concrete signed-form publickey request for pkDown whose signature
format is off the allow-list while the declared key algorithm is on it. -/
def msgSignedBadFormat : userAuthRequestMsg :=
  { user := strB "alice", service := serviceSSH, method := strB "publickey",
    payload := 1 :: (marshalString (strB "ssh-rsa") ++ marshalString [65] ++
      marshalString (marshalSignature sigBadFormat)) }

/-- A concrete publickey request whose declared key algorithm (and
signature format) is the off-list name bogus. -/
def msgSignedBadAlgo : userAuthRequestMsg :=
  { user := strB "alice", service := serviceSSH, method := strB "publickey",
    payload := 1 :: (marshalString (strB "bogus") ++ marshalString [65] ++
      marshalString (marshalSignature sigBadFormat)) }

/-- The upstream-side blob signAgain signs in the envMapped environment. -/
def blobUpMapped : List Byte :=
  buildDataSignedForAuth envMapped.upSessionID
    { user := envMapped.mappedUser, service := serviceSSH, method := strB "publickey",
      payload := [] }
    signerUp.publicKey.ktype signerUp.publicKey.marshal

/-- The signature signerUp produces over blobUpMapped. -/
def sigUpMapped : Signature := { format := strB "ssh-rsa", blob := blobUpMapped }

/-- A concrete piper setup with both callbacks configured and a
succeeding challenge. -/
def setupChallengeOk : PiperSetup :=
  { hasFindUpstream := true, hasChallenge := true, challengeResult := .ok true }

/-- A concrete piper setup whose FindUpstream callback is nil. -/
def setupNoFindUpstream : PiperSetup :=
  { hasFindUpstream := false, hasChallenge := false, challengeResult := .ok true }

/-- A concrete downstream request using the keyboard-interactive method. -/
def msgKbdInt : userAuthRequestMsg :=
  { user := strB "alice", service := serviceSSH, method := strB "keyboard-interactive",
    payload := [] }

/-- A concrete downstream stream: a first password request, then the
keyboard-interactive request the challenge loop waits for. -/
def downMsgsChallenge : List userAuthRequestMsg :=
  [{ user := strB "alice", service := serviceSSH, method := strB "password",
     payload := [] }, msgKbdInt]

/-- Round trip of the wire-string codec: a marshalled string parses back
to itself with the remainder untouched, provided its length fits the
4-byte prefix. -/
theorem parseString_marshalString (s rest : List Byte) (h : s.length < 4294967296) :
    parseString (marshalString s ++ rest) = some (s, rest) := by
  have hb : marshalString s ++ rest =
      s.length / 16777216 % 256 :: s.length / 65536 % 256 :: s.length / 256 % 256 ::
      s.length % 256 :: (s ++ rest) := by
    simp [marshalString, u32be]
  rw [hb]
  simp only [parseString]
  have hn : s.length / 16777216 % 256 * 16777216 + s.length / 65536 % 256 * 65536 +
      s.length / 256 % 256 * 256 + s.length % 256 = s.length := by omega
  rw [hn]
  rw [if_pos (by rw [List.length_append]; exact Nat.le_add_right _ _)]
  rw [List.take_left, List.drop_left]

/-- Round trip of the wire-string codec with nothing following. -/
theorem parseString_marshalString_self (s : List Byte) (h : s.length < 4294967296) :
    parseString (marshalString s) = some (s, []) := by
  have hr := parseString_marshalString s [] h
  rwa [List.append_nil] at hr

/-- Round trip of the wire-signature codec: a marshalled, wrapped
signature parses back to itself with the remainder untouched, provided
the lengths fit their 4-byte prefixes. -/
theorem parseSignature_marshal (sig : Signature) (rest : List Byte)
    (hf : sig.format.length < 4294967296) (hbl : sig.blob.length < 4294967296)
    (hw : (marshalSignature sig).length < 4294967296) :
    parseSignature (marshalString (marshalSignature sig) ++ rest) = some (sig, rest) := by
  obtain ⟨f, bl⟩ := sig
  have hf2 : f.length < 4294967296 := hf
  have hbl2 : bl.length < 4294967296 := hbl
  have hw2 : (marshalString f ++ marshalString bl).length < 4294967296 := hw
  simp only [parseSignature, marshalSignature]
  simp only [parseString_marshalString _ _ hw2, parseString_marshalString _ _ hf2,
    parseString_marshalString_self _ hbl2]
  simp

/-- A successful parsePublicKeyMsg implies the request used the publickey
method. -/
theorem parsePublicKeyMsg_method (parsePK : List Byte → Option PublicKey)
    (m : userAuthRequestMsg) (r : PublicKey × Option Signature)
    (h : parsePublicKeyMsg parsePK m = .ok r) : m.method = strB "publickey" := by
  by_contra hne
  simp only [parsePublicKeyMsg, if_pos hne] at h
  exact Except.noConfusion h

/-- A successful signAgain yields a message whose user field is the user
it was given. -/
theorem signAgain_user (env : PiperEnv) (u : List Byte) (msg : userAuthRequestMsg)
    (signer : Signer) (m : userAuthRequestMsg) (h : signAgain env u msg signer = some m) :
    m.user = u := by
  simp only [signAgain] at h
  split at h
  · exact Option.noConfusion h
  · injection h with h
    subst h
    rfl

/-- Reduction of processAuthMsg in the signed branch: with a configured
MapPublicKey, a signed-form parse and a mapped signer, the transform is
checkPublicKey followed by signAgain on success and a "none" request
carrying the downstream user on failure. -/
theorem processAuthMsg_signed (env : PiperEnv) (msg : userAuthRequestMsg)
    (k : PublicKey) (sig : Signature) (f : PublicKey → Option Signer) (signer : Signer)
    (hm : env.mapPublicKey = some f)
    (hp : parsePublicKeyMsg env.parsePK msg = .ok (k, some sig))
    (hf : f k = some signer) :
    processAuthMsg env msg =
      (if checkPublicKey env.downSessionID msg k sig then
        match signAgain env env.mappedUser msg signer with
        | none => Except.error AuthErr.signFail
        | some m => Except.ok (some m, [])
      else Except.ok (some (noneAuthMsg msg.user), [])) := by
  have hmethod : msg.method = strB "publickey" := parsePublicKeyMsg_method _ _ _ hp
  simp [processAuthMsg, hm, hmethod, hp, hf]

/-- Reduction of processAuthMsg in the query branch: with a configured
MapPublicKey, a query-form parse and a mapped signer, the transform is
exactly validAndAck on the mapped user, the mapped key and the parsed
downstream key. -/
theorem processAuthMsg_query (env : PiperEnv) (msg : userAuthRequestMsg)
    (k : PublicKey) (f : PublicKey → Option Signer) (signer : Signer)
    (hm : env.mapPublicKey = some f)
    (hp : parsePublicKeyMsg env.parsePK msg = .ok (k, none))
    (hf : f k = some signer) :
    processAuthMsg env msg = .ok (validAndAck env env.mappedUser signer.publicKey k) := by
  have hmethod : msg.method = strB "publickey" := parsePublicKeyMsg_method _ _ _ hp
  simp [processAuthMsg, hm, hmethod, hp, hf]

/-- C1, counterexample: with a configured MapPublicKey that maps the key
to nothing, the substituted "none" request carries the downstream user
alice, which differs from the mapped user of the environment — so not
every request forwarded to upstream has user equal to mappedUser. -/
theorem C1_none_user_counterexample :
    processAuthMsg envUnmapped msgQuery = .ok (some (noneAuthMsg (strB "alice")), []) ∧
    (noneAuthMsg (strB "alice")).user ≠ envUnmapped.mappedUser :=
  ⟨rfl, by decide⟩

/-- C1, amended: every request the transform hands to the relay loop for
forwarding either carries user = mappedUser, or is the substituted
"none" request carrying the downstream request's own user (the unmapped
key and failed-verification paths). -/
theorem C1_forwarded_user (env : PiperEnv) (msg fwd : userAuthRequestMsg)
    (ws : List (List Byte))
    (h : processAuthMsg env msg = .ok (some fwd, ws)) :
    fwd.user = env.mappedUser ∨ fwd = noneAuthMsg msg.user := by
  simp only [processAuthMsg] at h
  cases hm : env.mapPublicKey with
  | none =>
    simp only [hm] at h
    simp only [Except.ok.injEq, Prod.mk.injEq, Option.some.injEq] at h
    exact Or.inl (h.1 ▸ rfl)
  | some f =>
    simp only [hm] at h
    by_cases hmm : msg.method = strB "publickey"
    case neg =>
      rw [if_pos hmm] at h
      simp only [Except.ok.injEq, Prod.mk.injEq, Option.some.injEq] at h
      exact Or.inl (h.1 ▸ rfl)
    case pos =>
      rw [if_neg (not_not_intro hmm)] at h
      cases hp : parsePublicKeyMsg env.parsePK msg with
      | error e =>
        simp only [hp] at h
        exact Except.noConfusion h
      | ok kv =>
        obtain ⟨downKey, sigOpt⟩ := kv
        simp only [hp] at h
        cases hfk : f downKey with
        | none =>
          simp only [hfk] at h
          simp only [Except.ok.injEq, Prod.mk.injEq, Option.some.injEq] at h
          exact Or.inr h.1.symm
        | some signer =>
          cases sigOpt with
          | none =>
            simp only [hfk] at h
            simp only [validAndAck] at h
            by_cases hv : env.validateKey signer.publicKey env.mappedUser
            · rw [if_pos hv] at h
              simp at h
            · rw [if_neg hv] at h
              simp only [Except.ok.injEq, Prod.mk.injEq, Option.some.injEq] at h
              exact Or.inl (h.1 ▸ rfl)
          | some sig =>
            simp only [hfk] at h
            by_cases hc : checkPublicKey env.downSessionID msg downKey sig = true
            · rw [if_pos hc] at h
              cases hsa : signAgain env env.mappedUser msg signer with
              | none =>
                simp only [hsa] at h
                exact Except.noConfusion h
              | some m =>
                simp only [hsa] at h
                simp only [Except.ok.injEq, Prod.mk.injEq, Option.some.injEq] at h
                exact Or.inl (h.1 ▸ signAgain_user env env.mappedUser msg signer m hsa)
            · rw [if_neg hc] at h
              simp only [Except.ok.injEq, Prod.mk.injEq, Option.some.injEq] at h
              exact Or.inr h.1.symm

/-- C1, witness: the amended statement at the concrete unmapped-key
input, where the forwarded request is the "none" substitution carrying
the downstream user. -/
theorem C1_forwarded_user_witness :
    (noneAuthMsg (strB "alice")).user = envUnmapped.mappedUser ∨
    noneAuthMsg (strB "alice") = noneAuthMsg msgQuery.user :=
  C1_forwarded_user envUnmapped msgQuery (noneAuthMsg (strB "alice")) [] rfl

/-- C2: in the signed branch with a mapped signer, a verified downstream
request is rebuilt with user = mappedUser, the signer key's algorithm and
blob, the hasSig byte set, and a signature by the signer over the blob
built from the upstream session id and the rebuilt fields; when the
signer's signatures verify under its own key, the forwarded signature
verifies against the upstream session id. -/
theorem C2_sign_again (env : PiperEnv) (msg : userAuthRequestMsg) (k : PublicKey)
    (sig : Signature) (f : PublicKey → Option Signer) (signer : Signer) (s : Signature)
    (hm : env.mapPublicKey = some f)
    (hp : parsePublicKeyMsg env.parsePK msg = .ok (k, some sig))
    (hf : f k = some signer)
    (hchk : checkPublicKey env.downSessionID msg k sig = true)
    (hs : signer.sign (buildDataSignedForAuth env.upSessionID
        { user := env.mappedUser, service := serviceSSH, method := strB "publickey",
          payload := [] }
        signer.publicKey.ktype signer.publicKey.marshal) = some s)
    (hcorrect : ∀ data sg, signer.sign data = some sg →
        signer.publicKey.verify data sg = true) :
    processAuthMsg env msg = .ok (some
      { user := env.mappedUser, service := serviceSSH, method := strB "publickey",
        payload := 1 :: (marshalString signer.publicKey.ktype ++
          marshalString signer.publicKey.marshal ++
          marshalString (marshalSignature s)) }, [])
    ∧ signer.publicKey.verify (buildDataSignedForAuth env.upSessionID
        { user := env.mappedUser, service := serviceSSH, method := strB "publickey",
          payload := [] }
        signer.publicKey.ktype signer.publicKey.marshal) s = true := by
  constructor
  · rw [processAuthMsg_signed env msg k sig f signer hm hp hf, if_pos hchk]
    simp only [signAgain, hs]
  · exact hcorrect _ s hs

/-- C2, witness: the signed branch at the concrete mapped environment
and signed request, with the concrete signature signerUp produces. -/
theorem C2_sign_again_witness :
    processAuthMsg envMapped msgSigned = .ok (some
      { user := envMapped.mappedUser, service := serviceSSH, method := strB "publickey",
        payload := 1 :: (marshalString signerUp.publicKey.ktype ++
          marshalString signerUp.publicKey.marshal ++
          marshalString (marshalSignature sigUpMapped)) }, [])
    ∧ signerUp.publicKey.verify blobUpMapped sigUpMapped = true :=
  C2_sign_again envMapped msgSigned pkDown sigGood (fun _ => some signerUp) signerUp
    sigUpMapped rfl rfl rfl rfl rfl
    (by
      intro data sg hsg
      simp only [signerUp] at hsg
      injection hsg with hsg
      subst hsg
      simp [signerUp, pkUp])

/-- C3: in the query branch with a mapped signer, the transform is the
upstream probe: on acknowledgement it writes PK_OK carrying the
downstream key's algorithm and blob to the downstream and returns the nil
sentinel (nothing to forward), otherwise it returns a "none" request. -/
theorem C3_query_branch (env : PiperEnv) (msg : userAuthRequestMsg) (k : PublicKey)
    (f : PublicKey → Option Signer) (signer : Signer)
    (hm : env.mapPublicKey = some f)
    (hp : parsePublicKeyMsg env.parsePK msg = .ok (k, none))
    (hf : f k = some signer) :
    processAuthMsg env msg =
      (if env.validateKey signer.publicKey env.mappedUser then
        Except.ok (none, [marshalPubKeyOk k.ktype k.marshal])
      else Except.ok (some (noneAuthMsg env.mappedUser), [])) := by
  rw [processAuthMsg_query env msg k f signer hm hp hf]
  cases hv : env.validateKey signer.publicKey env.mappedUser with
  | false => simp [validAndAck, hv]
  | true => simp [validAndAck, hv]

/-- C3, witness: the query branch at the concrete mapped environment and
query request. -/
theorem C3_query_branch_witness :
    processAuthMsg envMapped msgQuery =
      (if envMapped.validateKey signerUp.publicKey envMapped.mappedUser then
        Except.ok (none, [marshalPubKeyOk pkDown.ktype pkDown.marshal])
      else Except.ok (some (noneAuthMsg envMapped.mappedUser), [])) :=
  C3_query_branch envMapped msgQuery pkDown (fun _ => some signerUp) signerUp rfl rfl rfl

/-- C4: in the signed branch with a mapped signer, a passing
checkPublicKey means the downstream key verified the signature over the
blob built from the downstream session id, the request's fields and the
downstream key's algorithm and blob; a failing checkPublicKey makes the
transform return the "none" substitution; and the transform's result does
not depend on the downstream signature beyond its verification outcome,
so the downstream signature itself is never part of a forwarded message. -/
theorem C4_downstream_sig (env : PiperEnv) (msg : userAuthRequestMsg) (k : PublicKey)
    (sig : Signature) (f : PublicKey → Option Signer) (signer : Signer)
    (hm : env.mapPublicKey = some f)
    (hp : parsePublicKeyMsg env.parsePK msg = .ok (k, some sig))
    (hf : f k = some signer) :
    (checkPublicKey env.downSessionID msg k sig = true →
      k.verify (buildDataSignedForAuth env.downSessionID msg k.ktype k.marshal) sig = true)
    ∧ (checkPublicKey env.downSessionID msg k sig = false →
      processAuthMsg env msg = .ok (some (noneAuthMsg msg.user), []))
    ∧ (∀ msgB sigB, parsePublicKeyMsg env.parsePK msgB = .ok (k, some sigB) →
        checkPublicKey env.downSessionID msg k sig = true →
        checkPublicKey env.downSessionID msgB k sigB = true →
        processAuthMsg env msg = processAuthMsg env msgB) := by
  refine ⟨?_, ?_, ?_⟩
  · intro hc
    simp only [checkPublicKey] at hc
    split at hc
    · exact Bool.noConfusion hc
    · exact hc
  · intro hc
    rw [processAuthMsg_signed env msg k sig f signer hm hp hf,
      if_neg (by simp [hc])]
  · intro msgB sigB hpB hc hcB
    rw [processAuthMsg_signed env msg k sig f signer hm hp hf,
      processAuthMsg_signed env msgB k sigB f signer hm hpB hf,
      if_pos hc, if_pos hcB]
    rfl

/-- C4, witness: the failed-verification case at a concrete signed
request whose signature format is off the allow-list. -/
theorem C4_downstream_sig_witness :
    checkPublicKey envMapped.downSessionID msgSignedBadFormat pkDown sigBadFormat = false ∧
    processAuthMsg envMapped msgSignedBadFormat =
      .ok (some (noneAuthMsg (strB "alice")), []) :=
  ⟨rfl, (C4_downstream_sig envMapped msgSignedBadFormat pkDown sigBadFormat
    (fun _ => some signerUp) signerUp rfl rfl rfl).2.1 rfl⟩

/-- C5, counterexample: a publickey request whose (declared and
signature) algorithm bogus is off the allow-list makes the transform
return an error, which the relay loop turns into an aborted run — not
the soft "none" substitution the claim states. -/
theorem C5_fatal_algo_counterexample :
    isAcceptableAlgo sigBadFormat.format = false ∧
    processAuthMsg envMapped msgSignedBadAlgo = .error .unacceptableAlgo ∧
    (pipeAuthLoop (processAuthMsg envMapped) msgSignedBadAlgo [] []).2 = .procFail :=
  ⟨rfl, rfl, rfl⟩

/-- C5, amended: when the declared key algorithm passes parsing but the
embedded signature's format is off the allow-list, the condition is
treated as a verification failure and the transform substitutes a "none"
request (soft); a request whose declared algorithm is itself off the
allow-list instead fails parsing and aborts the session. -/
theorem C5_soft_algo (env : PiperEnv) (msg : userAuthRequestMsg) (k : PublicKey)
    (sig : Signature) (f : PublicKey → Option Signer) (signer : Signer)
    (hm : env.mapPublicKey = some f)
    (hp : parsePublicKeyMsg env.parsePK msg = .ok (k, some sig))
    (hf : f k = some signer)
    (hfmt : isAcceptableAlgo sig.format = false) :
    processAuthMsg env msg = .ok (some (noneAuthMsg msg.user), []) := by
  rw [processAuthMsg_signed env msg k sig f signer hm hp hf,
    if_neg (by simp [checkPublicKey, hfmt])]

/-- C5, witness: the soft path at a concrete signed request with an
acceptable declared algorithm and an off-list signature format. -/
theorem C5_soft_algo_witness :
    processAuthMsg envMapped msgSignedBadFormat =
      .ok (some (noneAuthMsg msgSignedBadFormat.user), []) :=
  C5_soft_algo envMapped msgSignedBadFormat pkDown sigBadFormat
    (fun _ => some signerUp) signerUp rfl rfl rfl rfl

/-- Round trip of the wire-signature codec with nothing following. -/
theorem parseSignature_marshal_self (sig : Signature)
    (hf : sig.format.length < 4294967296) (hbl : sig.blob.length < 4294967296)
    (hw : (marshalSignature sig).length < 4294967296) :
    parseSignature (marshalString (marshalSignature sig)) = some (sig, []) := by
  have hr := parseSignature_marshal sig [] hf hbl hw
  rwa [List.append_nil] at hr

/-- C6, counterexample: a query-form payload with a stray byte after the
key blob parses successfully (the claim requires a parse error), and a
payload whose leading byte is 2 — neither 0x00 nor 0x01 — parses
successfully as signed form (the claim requires a parse error). -/
theorem C6_trailing_counterexample :
    parsePublicKeyMsg parsePKconcrete msgQueryTrailing = .ok (pkDown, none) ∧
    parsePublicKeyMsg parsePKconcrete
      { user := strB "alice", service := serviceSSH, method := strB "publickey",
        payload := 2 :: (marshalString (strB "ssh-rsa") ++ marshalString [65] ++
          marshalString (marshalSignature sigGood)) } = .ok (pkDown, some sigGood) :=
  ⟨rfl, rfl⟩

/-- C6, amended: a leading byte 0x00 selects the query form, in which no
signature follows and any bytes after the key blob are ignored; any
nonzero leading byte selects the signed form, which requires exactly one
wrapped signature after the key blob and rejects trailing bytes with a
parse error. -/
theorem C6_payload_shape (parsePK : List Byte → Option PublicKey)
    (u sv algo kd extra : List Byte) (k : PublicKey) (sig : Signature) (b : Byte)
    (ha : isAcceptableAlgo algo = true)
    (hk : parsePK kd = some k)
    (hla : algo.length < 4294967296) (hlk : kd.length < 4294967296)
    (hlf : sig.format.length < 4294967296) (hlb : sig.blob.length < 4294967296)
    (hlw : (marshalSignature sig).length < 4294967296) :
    parsePublicKeyMsg parsePK
      { user := u, service := sv, method := strB "publickey",
        payload := 0 :: (marshalString algo ++ marshalString kd ++ extra) } = .ok (k, none)
    ∧ (b ≠ 0 →
      parsePublicKeyMsg parsePK
        { user := u, service := sv, method := strB "publickey",
          payload := b :: (marshalString algo ++ marshalString kd ++
            marshalString (marshalSignature sig)) } = .ok (k, some sig))
    ∧ (b ≠ 0 → extra ≠ [] →
      parsePublicKeyMsg parsePK
        { user := u, service := sv, method := strB "publickey",
          payload := b :: (marshalString algo ++ marshalString kd ++
            marshalString (marshalSignature sig) ++ extra) } = .error .parseFail) := by
  refine ⟨?_, ?_, ?_⟩
  · simp [parsePublicKeyMsg, parseString_marshalString _ _ hla,
      parseString_marshalString _ _ hlk, ha, hk]
  · intro hb
    simp [parsePublicKeyMsg, parseString_marshalString _ _ hla,
      parseString_marshalString _ _ hlk, ha, hk, hb,
      parseSignature_marshal_self sig hlf hlb hlw]
  · intro hb hextra
    simp [parsePublicKeyMsg, parseString_marshalString _ _ hla,
      parseString_marshalString _ _ hlk, ha, hk, hb, hextra,
      parseSignature_marshal sig extra hlf hlb hlw]

/-- C6, witness: the amended shape rules at concrete payloads — a query
form with a trailing byte, a well-formed signed form, and a signed form
with trailing bytes after the signature. -/
theorem C6_payload_shape_witness :
    parsePublicKeyMsg parsePKconcrete msgQueryTrailing = .ok (pkDown, none) ∧
    parsePublicKeyMsg parsePKconcrete msgSigned = .ok (pkDown, some sigGood) ∧
    parsePublicKeyMsg parsePKconcrete
      { user := strB "alice", service := serviceSSH, method := strB "publickey",
        payload := 1 :: (marshalString (strB "ssh-rsa") ++ marshalString [65] ++
          marshalString (marshalSignature sigGood) ++ [99]) } = .error .parseFail := by
  have h := C6_payload_shape parsePKconcrete (strB "alice") serviceSSH (strB "ssh-rsa")
    [65] [99] pkDown sigGood 1 (by decide) rfl (by decide) (by decide) (by decide)
    (by decide) (by decide)
  exact ⟨h.1, h.2.1 (by decide), h.2.2 (by decide) (by decide)⟩

/-- C7: every run of the relay loop yields a strictly sequential trace:
each iteration with a non-nil transformed message writes exactly that one
message upstream, reads exactly one reply, writes the reply verbatim to
the downstream before the next downstream read, and the run returns
success exactly when the reply's type byte is USERAUTH_SUCCESS. -/
theorem C7_relay_sequential
    (process : userAuthRequestMsg → Except AuthErr (Option userAuthRequestMsg × List (List Byte)))
    (msg : userAuthRequestMsg) (ups : List (Byte × List Byte))
    (downs : List userAuthRequestMsg) :
    RelaySeq (pipeAuthLoop process msg ups downs).1 (pipeAuthLoop process msg ups downs).2 := by
  induction downs generalizing msg ups with
  | nil =>
    rw [pipeAuthLoop]
    cases hpr : process msg with
    | error e => exact RelaySeq.procFail
    | ok tw =>
      obtain ⟨transformed, ws⟩ := tw
      cases transformed with
      | none => exact RelaySeq.downEOF ws
      | some fm =>
        cases ups with
        | nil => exact RelaySeq.upEOF ws fm
        | cons bp upRest =>
          obtain ⟨b, p⟩ := bp
          by_cases hb : b = msgUserAuthSuccess
          · subst hb
            exact RelaySeq.succeed ws fm p
          · simp only [if_neg hb]
            exact RelaySeq.forwardEOF ws fm b p hb
  | cons m downRest ih =>
    rw [pipeAuthLoop]
    cases hpr : process msg with
    | error e => exact RelaySeq.procFail
    | ok tw =>
      obtain ⟨transformed, ws⟩ := tw
      cases transformed with
      | none => exact RelaySeq.stepSkip ws m _ _ (ih m ups)
      | some fm =>
        cases ups with
        | nil => exact RelaySeq.upEOF ws fm
        | cons bp upRest =>
          obtain ⟨b, p⟩ := bp
          by_cases hb : b = msgUserAuthSuccess
          · subst hb
            exact RelaySeq.succeed ws fm p
          · simp only [if_neg hb, List.append_assoc, List.cons_append, List.nil_append]
            exact RelaySeq.stepForward ws fm b p m _ _ hb (ih m upRest)

/-- The challenge prompt loop only writes prompts and reads requests: its
trace never contains a FindUpstream invocation. -/
theorem challengeLoop_no_findUpstream (l : List userAuthRequestMsg) :
    PiperStep.findUpstreamInvoked ∉ (challengeLoop l).1 := by
  induction l with
  | nil => simp [challengeLoop]
  | cons m rest ih =>
    simp only [challengeLoop]
    split
    · simp
    · simp [ih]

/-- C8: in every modelled run of NewSSHPiperConn, FindUpstream is invoked
at most once; and when a challenge is configured, any run that invokes
FindUpstream had a challenge that reported success, the invocation is the
final modelled step, and the challenge invocation strictly precedes it. -/
theorem C8_find_upstream_once (setup : PiperSetup) (hsOk : Bool)
    (downMsgs : List userAuthRequestMsg) :
    (newSSHPiperConnModel setup hsOk downMsgs).1.count PiperStep.findUpstreamInvoked ≤ 1
    ∧ (setup.hasChallenge = true →
      PiperStep.findUpstreamInvoked ∈ (newSSHPiperConnModel setup hsOk downMsgs).1 →
      setup.challengeResult = Except.ok true
      ∧ (newSSHPiperConnModel setup hsOk downMsgs).1 =
          (newSSHPiperConnModel setup hsOk downMsgs).1.dropLast ++
            [PiperStep.findUpstreamInvoked]
      ∧ PiperStep.challengeInvoked ∈ (newSSHPiperConnModel setup hsOk downMsgs).1.dropLast
      ∧ PiperStep.findUpstreamInvoked ∉
          (newSSHPiperConnModel setup hsOk downMsgs).1.dropLast) := by
  cases hfu : setup.hasFindUpstream with
  | false =>
    simp [newSSHPiperConnModel, hfu]
  | true =>
    cases hho : hsOk with
    | false =>
      simp [newSSHPiperConnModel, hfu, hho]
    | true =>
      cases downMsgs with
      | nil =>
        simp [newSSHPiperConnModel, hfu, hho]
      | cons first rest =>
        cases hch : setup.hasChallenge with
        | false =>
          simp [newSSHPiperConnModel, hfu, hho, hch, List.count_cons]
        | true =>
          have hnt := challengeLoop_no_findUpstream rest
          rcases hcl : challengeLoop rest with ⟨t, rem⟩
          rw [hcl] at hnt
          cases rem with
          | none =>
            simp [newSSHPiperConnModel, hfu, hho, hch, hcl, List.count_cons,
              List.count_eq_zero.mpr hnt, hnt]
          | some rest2 =>
            cases hcr : setup.challengeResult with
            | error e =>
              simp [newSSHPiperConnModel, hfu, hho, hch, hcl, hcr, List.count_cons,
                List.count_append, List.count_eq_zero.mpr hnt, hnt]
            | ok bres =>
              cases bres with
              | false =>
                simp [newSSHPiperConnModel, hfu, hho, hch, hcl, hcr, List.count_cons,
                  List.count_append, List.count_eq_zero.mpr hnt, hnt]
              | true =>
                constructor
                · simp [newSSHPiperConnModel, hfu, hho, hch, hcl, hcr, List.count_cons,
                    List.count_append, List.count_eq_zero.mpr hnt]
                · intro _ _
                  refine ⟨rfl, ?_⟩
                  have htr : (newSSHPiperConnModel setup true (first :: rest)).1 =
                      ([PiperStep.downstreamHandshake, PiperStep.readDown first] ++ t ++
                        [PiperStep.challengeInvoked]) ++ [PiperStep.findUpstreamInvoked] := by
                    simp [newSSHPiperConnModel, hfu, hch, hcl, hcr]
                  have hdl : (newSSHPiperConnModel setup true (first :: rest)).1.dropLast =
                      [PiperStep.downstreamHandshake, PiperStep.readDown first] ++ t ++
                        [PiperStep.challengeInvoked] := by
                    rw [htr, List.dropLast_concat]
                  refine ⟨?_, ?_, ?_⟩
                  · rw [hdl, htr]
                  · rw [hdl]; simp
                  · rw [hdl]; simp [hnt]

/-- C8, witness: the concrete run with a configured, succeeding challenge
and a downstream that answers the prompt: FindUpstream is invoked at most
once and only after the successful challenge. -/
theorem C8_find_upstream_once_witness :
    (newSSHPiperConnModel setupChallengeOk true downMsgsChallenge).1.count
      PiperStep.findUpstreamInvoked ≤ 1
    ∧ setupChallengeOk.challengeResult = Except.ok true :=
  ⟨(C8_find_upstream_once setupChallengeOk true downMsgsChallenge).1,
   ((C8_find_upstream_once setupChallengeOk true downMsgsChallenge).2 rfl (by decide)).1⟩

/-- C9: AddHostKey replaces the first host key of the same public-key
algorithm type when one exists, keeping the list length, and otherwise
appends the new key. -/
theorem C9_add_host_key (key : Signer) (l : List Signer) :
    addHostKey l key =
      (if l.any (fun k => k.publicKey.ktype == key.publicKey.ktype) then
        l.set (l.findIdx (fun k => k.publicKey.ktype == key.publicKey.ktype)) key
      else l ++ [key])
    ∧ (addHostKey l key).length =
      (if l.any (fun k => k.publicKey.ktype == key.publicKey.ktype) then l.length
       else l.length + 1) := by
  induction l with
  | nil => simp [addHostKey]
  | cons k rest ih =>
    obtain ⟨ih1, ih2⟩ := ih
    by_cases hk : k.publicKey.ktype = key.publicKey.ktype
    · simp [addHostKey, hk, List.findIdx_cons]
    · have hkb : (k.publicKey.ktype == key.publicKey.ktype) = false := by
        simp [hk]
      by_cases hr : rest.any (fun s => s.publicKey.ktype == key.publicKey.ktype) = true
      · rw [if_pos hr] at ih1 ih2
        simp [addHostKey, hk, hkb, hr, List.findIdx_cons, ih1, ih2]
      · rw [if_neg hr] at ih1 ih2
        simp [addHostKey, hk, hkb, hr, List.findIdx_cons, ih1, ih2]

/-- C10: a configuration without a FindUpstream callback panics at once:
the modelled run ends as panicked with an empty trace, so no handshake or
I/O on the downstream connection has happened. -/
theorem C10_nil_find_upstream_panics (setup : PiperSetup) (hsOk : Bool)
    (downMsgs : List userAuthRequestMsg) (h : setup.hasFindUpstream = false) :
    newSSHPiperConnModel setup hsOk downMsgs = ([], PiperOutcome.panicked) := by
  simp [newSSHPiperConnModel, h]

/-- C10, witness: the panic at the concrete setup with a nil FindUpstream. -/
theorem C10_nil_find_upstream_panics_witness :
    newSSHPiperConnModel setupNoFindUpstream true downMsgsChallenge =
      ([], PiperOutcome.panicked) :=
  C10_nil_find_upstream_panics setupNoFindUpstream true downMsgsChallenge rfl
